import Mathlib

/-
Verification of the tradify-cli incremental table-scan and conditional-update
engine (package internal, files mysql.go / convert.go).  The engine is embedded
shallowly: nullable SQL scalars are `Option String` (sql.NullString), bound
statement arguments are `Arg`, observable per-row effects (executed statements,
dry-run log lines) are `Effect`, and the two scan loops are modelled as step
functions over an abstract query outcome, with the SQL engine and the OpenCC
conversion oracle supplied as function parameters (they are external
collaborators of the core).
-/

namespace Tradify

/-- A nullable SQL scalar, as decoded through sql.NullString: `none` is NULL. -/
abbrev Value := Option String

/-- A bound statement argument (Go `interface{}` holding a string or an int). -/
inductive Arg where
  | str : String → Arg
  | int : Int → Arg
deriving DecidableEq, Repr

/-- An observable effect of planning one row's update: either an executed
statement with its bound arguments, or a dry-run log line surfacing the
statement and arguments without executing. -/
inductive Effect where
  | exec : String → List Arg → Effect
  | dryLog : String → List Arg → Effect
deriving DecidableEq, Repr

/-- MySQLConfig from internal/mysql.go (current revision, the one compiled
with cmd/main.go and the file-config loader). -/
structure MySQLConfig where
  DSN : String := ""
  Table : String := ""
  PK : List String := []
  IdentifyBy : List String := []
  Columns : List String := []
  To : String := "s2twp"
  BatchSize : Int := 500
  Workers : Int := 8
  RPS : Int := 0
  DryRun : Bool := true
  MaxOpenConns : Int := 200
  MaxIdleConns : Int := 20
  ConnMaxLifetime : Int := 0
deriving Repr

/-- One decoded keyset-mode row: the primary-key tuple and the values of the
configured transform columns, in configuration order. -/
structure RowPK where
  pk : List Value
  data : List Value
deriving DecidableEq, Repr

/-- quoteAll from mysql.go: backtick-quote every identifier. -/
def quoteAll (cols : List String) : List String :=
  cols.map (fun c => "`" ++ c ++ "`")

/-- Helper for indexOf: scan with a running index. -/
def indexOfAux : List String → String → Int → Int
  | [], _, _ => -1
  | v :: rest, s, i => if v = s then i else indexOfAux rest s (i + 1)

/-- indexOf from mysql.go: first index of `s` in `arr`, -1 when absent. -/
def indexOf (arr : List String) (s : String) : Int :=
  indexOfAux arr s 0

/-- anyValid from mysql.go: true iff some component of the key tuple is
non-NULL (sql.NullString.Valid). -/
def anyValid (keys : List Value) : Bool :=
  keys.any Option.isSome

/-- nz from mysql.go: the string of a nullable value, empty string for NULL. -/
def nz (v : Value) : String :=
  v.getD ""

/-- IsASCIIOnly from convert.go: empty string counts as ASCII-only; otherwise
every rune must be at most 127. -/
def IsASCIIOnly (s : String) : Bool :=
  if s = "" then true
  else s.toList.all (fun c => decide (c.toNat ≤ 127))

/-- HasChinese from convert.go; the Han rune table of Go's unicode package is
an external collaborator, passed as the predicate `isHan`. -/
def HasChinese (isHan : Char → Bool) (s : String) : Bool :=
  s.toList.any isHan

/-- ConvertIfNeeded from convert.go.  `getConverter` stands for GetConverter
(the memoized OpenCC factory) and the returned function for cc.Convert; both
are external collaborators.  Empty, ASCII-only, or Han-free input returns
unchanged with no conversion flag and no oracle involvement. -/
def ConvertIfNeeded (getConverter : String → Except String (String → Except String String))
    (isHan : Char → Bool) (toV s : String) : Except String (String × Bool) :=
  if s == "" || IsASCIIOnly s || !(HasChinese isHan s) then Except.ok (s, false)
  else
    match getConverter toV with
    | Except.error e => Except.error ("init opencc(" ++ toV ++ "): " ++ e)
    | Except.ok conv =>
      match conv s with
      | Except.error e => Except.error ("opencc convert: " ++ e)
      | Except.ok out => if out = s then Except.ok (s, false) else Except.ok (out, true)

/-- The shape of the per-row conversion decision used by the scan code:
(to, storedText) ↦ (newText, needsChange) or an error.  Instantiated with
`ConvertIfNeeded getConverter isHan` when the oracle matters. -/
abbrev ConvFn := String → String → Except String (String × Bool)

/-- The equality/IS NULL predicate loop shared by the primary-key WHERE
(mysql.go processWithPK) and the whole-row fallback WHERE (processNoPK):
for each (column, value) pair in order, a NULL value yields a bare
`IS NULL` predicate and binds nothing, a non-NULL value yields `= ?` and
binds the value. -/
def whereEq : List (String × Value) → List String × List Arg
  | [] => ([], [])
  | (c, v) :: rest =>
    let r := whereEq rest
    match v with
    | some s => ((("`" ++ c ++ "` = ?") :: r.1), Arg.str s :: r.2)
    | none => ((("`" ++ c ++ "` IS NULL") :: r.1), r.2)

/-- The identify-by WHERE loop of processNoPK: a configured column that is not
found in the table's column list (indexOf < 0) is skipped outright; otherwise
the row's value at its index decides between `IS NULL` and `= ?`. -/
def whereIdentify (allCols : List String) (rowVals : List Value) : List String → List String × List Arg
  | [] => ([], [])
  | col :: rest =>
    let r := whereIdentify allCols rowVals rest
    if indexOf allCols col < 0 then r
    else
      match rowVals.getD (indexOf allCols col).toNat none with
      | none => ((("`" ++ col ++ "` IS NULL") :: r.1), r.2)
      | some v => ((("`" ++ col ++ "` = ?") :: r.1), Arg.str v :: r.2)

/-- The SET clause loop: iterate the configured columns in order and emit
`col = ?` with the new value bound for every column present in the changed
map. -/
def setClause (cols : List String) (changed : List (String × String)) : List String × List Arg :=
  match cols with
  | [] => ([], [])
  | c :: rest =>
    let r := setClause rest changed
    match changed.lookup c with
    | some v => ((("`" ++ c ++ "` = ?") :: r.1), Arg.str v :: r.2)
    | none => r

/-- The per-row changed-map construction of processWithPK: pairs are
(column, stored value) in configuration order; NULL and empty values are
skipped without consulting the conversion function, a conversion error skips
the column, and only a reported change adds an entry. -/
def buildChanged (cif : ConvFn) (toV : String) : List (String × Value) → List (String × String)
  | [] => []
  | (c, v) :: rest =>
    let r := buildChanged cif toV rest
    match v with
    | none => r
    | some s =>
      if s = "" then r
      else
        match cif toV s with
        | Except.error _ => r
        | Except.ok (out, need) => if need then (c, out) :: r else r

/-- The per-row changed-map construction of processNoPK: each configured
column is located in the table's column list first; a missing column, a NULL
value or an empty value is skipped, otherwise as in `buildChanged`. -/
def buildChangedNoPK (cif : ConvFn) (toV : String) (allCols : List String)
    (rowVals : List Value) : List String → List (String × String)
  | [] => []
  | c :: rest =>
    let r := buildChangedNoPK cif toV allCols rowVals rest
    if indexOf allCols c < 0 then r
    else
      match rowVals.getD (indexOf allCols c).toNat none with
      | none => r
      | some s =>
        if s = "" then r
        else
          match cif toV s with
          | Except.error _ => r
          | Except.ok (out, need) => if need then (c, out) :: r else r

/-- The UPDATE statement of processWithPK: SET parts over the configured
columns, WHERE over the primary-key tuple, arguments bound SET-first then
WHERE. -/
def buildUpdatePK (cfg : MySQLConfig) (pkVals : List Value)
    (changed : List (String × String)) : String × List Arg :=
  let s := setClause cfg.Columns changed
  let w := whereEq (List.zip cfg.PK pkVals)
  ("UPDATE `" ++ cfg.Table ++ "` SET " ++ String.intercalate "," s.1 ++
     " WHERE " ++ String.intercalate " AND " w.1,
   s.2 ++ w.2)

/-- The UPDATE statement of processNoPK: SET parts over the configured
columns; WHERE from the identify-by columns when any are configured, else
whole-row equality over every table column with ` LIMIT 1` appended;
arguments bound SET-first then WHERE. -/
def buildUpdateNoPK (cfg : MySQLConfig) (allCols : List String) (rowVals : List Value)
    (changed : List (String × String)) : String × List Arg :=
  let s := setClause cfg.Columns changed
  let w :=
    if cfg.IdentifyBy.isEmpty then whereEq (List.zip allCols rowVals)
    else whereIdentify allCols rowVals cfg.IdentifyBy
  let sql := "UPDATE `" ++ cfg.Table ++ "` SET " ++ String.intercalate "," s.1 ++
     " WHERE " ++ String.intercalate " AND " w.1
  (if cfg.IdentifyBy.isEmpty then sql ++ " LIMIT 1" else sql, s.2 ++ w.2)

/-- The keyset-mode SELECT of processWithPK: the tuple-comparison WHERE is
added exactly when anyValid holds of the saved key tuple; ORDER BY lists the
key columns unquoted and the batch size is the final bound argument. -/
def buildSelectPK (cfg : MySQLConfig) (lastKey : List Value) : String × List Arg :=
  let base := "SELECT " ++ String.intercalate "," (quoteAll (cfg.PK ++ cfg.Columns)) ++
    " FROM `" ++ cfg.Table ++ "`"
  let withWhere :=
    if anyValid lastKey then
      (base ++ " WHERE (" ++ String.intercalate "," cfg.PK ++ ") > (" ++
         String.intercalate "," (List.replicate cfg.PK.length "?") ++ ")",
       lastKey.map (fun k => Arg.str (nz k)))
    else (base, ([] : List Arg))
  (withWhere.1 ++ " ORDER BY " ++ String.intercalate "," cfg.PK ++ " LIMIT ?",
   withWhere.2 ++ [Arg.int cfg.BatchSize])

/-- The offset-mode SELECT of processNoPK; batch size and offset are bound
positionally at the driver level. -/
def buildSelectNoPK (cfg : MySQLConfig) (allCols : List String) : String :=
  "SELECT " ++ String.intercalate "," (quoteAll allCols) ++ " FROM `" ++ cfg.Table ++
    "` LIMIT ? OFFSET ?"

/-- Per-row processing of processWithPK (current revision): the update block
runs only when the changed map is non-empty and dry-run is off; in dry-run
mode nothing is built, logged or executed. -/
def processRowWithPK (cfg : MySQLConfig) (cif : ConvFn) (r : RowPK) : List Effect :=
  let changed := buildChanged cif cfg.To (List.zip cfg.Columns r.data)
  if !changed.isEmpty && !cfg.DryRun then
    let u := buildUpdatePK cfg r.pk changed
    [Effect.exec u.1 u.2]
  else []

/-- Per-row processing of processWithPK in the superseded revision kept at
src/internal/mysql.go: the statement is always built once the changed map is
non-empty, then either logged (dry run) or executed (live). -/
def processRowWithPKLegacy (cfg : MySQLConfig) (cif : ConvFn) (r : RowPK) : List Effect :=
  let changed := buildChanged cif cfg.To (List.zip cfg.Columns r.data)
  if changed.isEmpty then []
  else
    let u := buildUpdatePK cfg r.pk changed
    if cfg.DryRun then [Effect.dryLog u.1 u.2] else [Effect.exec u.1 u.2]

/-- Per-row processing of processNoPK (current revision): as in the keyset
mode, the update block is skipped entirely in dry-run mode. -/
def processRowNoPK (cfg : MySQLConfig) (cif : ConvFn) (allCols : List String)
    (rowVals : List Value) : List Effect :=
  let changed := buildChangedNoPK cif cfg.To allCols rowVals cfg.Columns
  if !changed.isEmpty && !cfg.DryRun then
    let u := buildUpdateNoPK cfg allCols rowVals changed
    [Effect.exec u.1 u.2]
  else []

/-- The outcome of one SELECT attempt: a transient query error, or a batch of
decoded rows (each row the values of the selected columns in order). -/
inductive QueryOutcome where
  | qerr : QueryOutcome
  | qok : List (List Value) → QueryOutcome

/-- What one iteration of a scan loop does to its resume state: sleep a fixed
number of seconds and retry at the same state, finish the scan, or continue
at a new state. -/
inductive ScanStep (σ : Type) where
  | retry : Nat → σ → ScanStep σ
  | done : ScanStep σ
  | next : σ → ScanStep σ
deriving DecidableEq

/-- One iteration of the keyset scan loop of processWithPK: a query error
sleeps 5 seconds and retries with the cursor untouched; an empty batch ends
the scan; otherwise every row is processed and the cursor becomes the key
tuple of the batch's last row. -/
def withPKIter (cfg : MySQLConfig) (cif : ConvFn) (lastKey : List Value) :
    QueryOutcome → ScanStep (List Value) × List Effect
  | QueryOutcome.qerr => (ScanStep.retry 5 lastKey, [])
  | QueryOutcome.qok batch =>
    let rows := batch.map (fun raw => RowPK.mk (raw.take cfg.PK.length) (raw.drop cfg.PK.length))
    match rows.getLast? with
    | none => (ScanStep.done, [])
    | some last => (ScanStep.next last.pk, (rows.map (processRowWithPK cfg cif)).flatten)

/-- The inner row loop of processNoPK: processes each row of the batch and
threads the row counter `n`, which is incremented once per row. -/
def noPKBatch (cfg : MySQLConfig) (cif : ConvFn) (allCols : List String) :
    List (List Value) → Nat → Nat × List Effect
  | [], n => (n, [])
  | r :: rest, n =>
    let effs := processRowNoPK cfg cif allCols r
    let res := noPKBatch cfg cif allCols rest (n + 1)
    (res.1, effs ++ res.2)

/-- One iteration of the offset scan loop of processNoPK: a query error
sleeps 5 seconds and retries at the same offset; a batch is processed row by
row, and the scan ends when the row counter stayed zero, otherwise the offset
advances by the counter. -/
def noPKIter (cfg : MySQLConfig) (cif : ConvFn) (allCols : List String) (offset : Nat) :
    QueryOutcome → ScanStep Nat × List Effect
  | QueryOutcome.qerr => (ScanStep.retry 5 offset, [])
  | QueryOutcome.qok batch =>
    let res := noPKBatch cfg cif allCols batch 0
    if res.1 = 0 then (ScanStep.done, res.2) else (ScanStep.next (offset + res.1), res.2)

/-- Feeding `k` consecutive query errors to the offset scan loop, collecting
the sleep durations. -/
def noPKErrRun (cfg : MySQLConfig) (cif : ConvFn) (allCols : List String) (offset : Nat) :
    Nat → Nat × List Nat
  | 0 => (offset, [])
  | Nat.succ k =>
    match noPKIter cfg cif allCols offset QueryOutcome.qerr with
    | (ScanStep.retry s off, _) =>
      let r := noPKErrRun cfg cif allCols off k
      (r.1, s :: r.2)
    | (_, _) => (offset, [])

/-- Feeding `k` consecutive query errors to the keyset scan loop, collecting
the sleep durations. -/
def withPKErrRun (cfg : MySQLConfig) (cif : ConvFn) (lastKey : List Value) :
    Nat → List Value × List Nat
  | 0 => (lastKey, [])
  | Nat.succ k =>
    match withPKIter cfg cif lastKey QueryOutcome.qerr with
    | (ScanStep.retry s key, _) =>
      let r := withPKErrRun cfg cif key k
      (r.1, s :: r.2)
    | (_, _) => (lastKey, [])

/-- The setup phase of processNoPK before its scan loop: schema introspection
(getAllColumns, whose outcome is the parameter) is fatal on error, and a table
with zero columns is fatal; everything else proceeds with the discovered
column list. -/
def noPKSetup (cfg : MySQLConfig) (introspect : Except String (List String)) :
    Except String (List String) :=
  match introspect with
  | Except.error e => Except.error ("获取列失败：" ++ e)
  | Except.ok allCols =>
    if allCols = [] then Except.error ("表 " ++ cfg.Table ++ " 无列") else Except.ok allCols

/-- The cursor trajectory of processWithPK against a fixed (static-table) SQL
engine `exec`: one step issues the SELECT built from the saved key tuple,
terminates on an empty batch, and otherwise saves the key tuple of the last
row. -/
def pkScanStep (exec : String → List Arg → List (List Value)) (cfg : MySQLConfig)
    (lastKey : List Value) : Option (List Value) :=
  let q := buildSelectPK cfg lastKey
  match (exec q.1 q.2).getLast? with
  | none => none
  | some lastRow => some (lastRow.take cfg.PK.length)

/-- `n` iterations of the keyset cursor trajectory from the initial all-unset
key tuple; `none` means the scan has reached its empty-batch termination. -/
def scanRun (exec : String → List Arg → List (List Value)) (cfg : MySQLConfig)
    (n : Nat) : Option (List Value) :=
  (fun o => Option.bind o (pkScanStep exec cfg))^[n]
    (some (List.replicate cfg.PK.length none))

/-- A concrete single-key configuration in dry-run mode, used to evaluate the
embedding at specific inputs. -/
def cfgDemoPK : MySQLConfig :=
  { Table := "t", PK := ["id"], Columns := ["c"], To := "s2twp", DryRun := true }

/-- The same configuration in live mode. -/
def cfgDemoPKLive : MySQLConfig :=
  { cfgDemoPK with DryRun := false }

/-- A concrete conversion function reporting that every text needs a change
(appending a marker), used to drive the update path at specific inputs. -/
def cifMark : ConvFn := fun _ s => Except.ok (s ++ "T", true)

/-- A concrete conversion function reporting that no text needs a change. -/
def cifNoop : ConvFn := fun _ s => Except.ok (s, false)

/-- A concrete row for the keyset mode: key 1, one convertible column. -/
def rowDemo : RowPK := RowPK.mk [some "1"] [some "简"]

/-- A concrete no-key configuration whose identify-by column does not exist in
the table at hand. -/
def cfgC3 : MySQLConfig :=
  { Table := "t", IdentifyBy := ["u"], Columns := ["c"] }

/-- A concrete single-key configuration for exercising the keyset SELECT. -/
def cfgC5 : MySQLConfig :=
  { Table := "t", PK := ["a"], Columns := ["c"], BatchSize := 2 }

/-- A concrete static-table SQL engine for `cfgC5`: the unfiltered first-page
SELECT returns two rows, the second of which has a NULL key. -/
def execC9 : String → List Arg → List (List Value) := fun sql _ =>
  if sql = "SELECT `a`,`c` FROM `t` ORDER BY a LIMIT ?" then
    [[some "1", some "x"], [none, some "y"]]
  else []

/-- A concrete conversion-oracle factory that always fails; used to show that
certain inputs never reach the oracle. -/
def getConvDemo : String → Except String (String → Except String String) :=
  fun _ => Except.error "unused"

/-- A second, different factory for the same purpose. -/
def getConvDemo2 : String → Except String (String → Except String String) :=
  fun _ => Except.ok (fun s => Except.ok (s ++ "!"))

/-- A concrete Han predicate. -/
def isHanDemo : Char → Bool := fun c => c = '简'

/-- The row counter of the inner loop of processNoPK is incremented exactly
once per row of the batch. -/
theorem noPKBatch_count (cfg : MySQLConfig) (cif : ConvFn) (allCols : List String)
    (l : List (List Value)) (n : Nat) :
    (noPKBatch cfg cif allCols l n).1 = n + l.length := by
  induction l generalizing n with
  | nil => simp [noPKBatch]
  | cons r rest ih => simp [noPKBatch, ih]; omega

/-- A name absent from the column list is reported as -1 by the index scan. -/
theorem indexOfAux_eq_neg_one (arr : List String) (s : String) (i : Int)
    (h : s ∉ arr) : indexOfAux arr s i = -1 := by
  induction arr generalizing i with
  | nil => rfl
  | cons v rest ih =>
    simp only [List.mem_cons, not_or] at h
    simp only [indexOfAux, if_neg (Ne.symm h.1)]
    exact ih (i + 1) h.2

/-- indexOf reports -1 exactly for names absent from the column list. -/
theorem indexOf_neg_of_not_mem (arr : List String) (s : String) (h : s ∉ arr) :
    indexOf arr s < 0 := by
  simp [indexOf, indexOfAux_eq_neg_one arr s 0 h]

/-- When every identify-by name is absent from the table's column list, the
identify-by WHERE loop produces no predicate and binds no argument. -/
theorem whereIdentify_all_absent (allCols : List String) (rowVals : List Value)
    (ids : List String) (h : ∀ c ∈ ids, c ∉ allCols) :
    whereIdentify allCols rowVals ids = ([], []) := by
  induction ids with
  | nil => rfl
  | cons c rest ih =>
    have hc : indexOf allCols c < 0 :=
      indexOf_neg_of_not_mem allCols c (h c (List.mem_cons_self c rest))
    have hrest := ih (fun x hx => h x (List.mem_cons_of_mem c hx))
    simp [whereIdentify, hc, hrest]

/-- Iterating an Option-bind step from `none` stays at `none`. -/
theorem bindIter_none {α : Type} (g : α → Option α) (j : Nat) :
    (fun o => Option.bind o g)^[j] none = none :=
  Function.iterate_fixed rfl j

/-- If an Option-bind trajectory returns to its start after `p > 0` steps, it
never reaches `none`. -/
theorem bindIter_cycle_ne_none {α : Type} (g : α → Option α) (a : α) (p : Nat)
    (hp : 0 < p) (hcyc : (fun o => Option.bind o g)^[p] (some a) = some a) :
    ∀ n, (fun o => Option.bind o g)^[n] (some a) ≠ none := by
  intro n hn
  have hmul : ∀ q, (fun o => Option.bind o g)^[p * q] (some a) = some a := by
    intro q
    rw [Function.iterate_mul]
    exact Function.iterate_fixed hcyc q
  have hdecomp : (fun o => Option.bind o g)^[n] (some a) =
      (fun o => Option.bind o g)^[n % p] (some a) := by
    conv_lhs => rw [← Nat.mod_add_div n p]
    rw [Function.iterate_add_apply, hmul]
  have hrn : (fun o => Option.bind o g)^[n % p] (some a) = none := by
    rw [← hdecomp]; exact hn
  have hlt : n % p < p := Nat.mod_lt n hp
  have hnone : (fun o => Option.bind o g)^[p] (some a) = none := by
    have hsplit : (fun o => Option.bind o g)^[(p - n % p) + n % p] (some a) =
        (fun o => Option.bind o g)^[p - n % p]
          ((fun o => Option.bind o g)^[n % p] (some a)) :=
      Function.iterate_add_apply _ _ _ _
    rw [Nat.sub_add_cancel hlt.le] at hsplit
    rw [hsplit, hrn]
    exact bindIter_none g _
  rw [hcyc] at hnone
  exact Option.noConfusion hnone

/-- Claim C1 — in offset (no-primary-key) mode, each iteration of the scan
loop that receives a batch advances the offset by the number of rows actually
returned (the unconditionally incremented row counter), not by the configured
batch size, and the loop terminates exactly when the batch is empty. -/
theorem c1_offset_advances_by_rows_returned (cfg : MySQLConfig) (cif : ConvFn)
    (allCols : List String) (offset : Nat) (batch : List (List Value)) :
    (noPKIter cfg cif allCols offset (QueryOutcome.qok batch)).1 =
      if batch = [] then ScanStep.done else ScanStep.next (offset + batch.length) := by
  cases batch with
  | nil => simp [noPKIter, noPKBatch]
  | cons r rest =>
    have hcount := noPKBatch_count cfg cif allCols (r :: rest) 0
    simp only [noPKIter, hcount]
    simp

/-- Claim C2 — the code contradicts the claim: with dry_run set, the current
processWithPK (src/unnamed/part_000, the revision compiled with cmd/main.go)
skips the whole statement-building block, so no statement or argument list is
surfaced for logging at all, while for the identical input state live mode
would execute a fully-bound UPDATE.  The superseded revision in
src/internal/mysql.go, and the program's own --dry-run help text, log exactly
the live statement. -/
theorem c2_dry_run_surfaces_nothing :
    processRowWithPK cfgDemoPK cifMark rowDemo = [] ∧
    processRowWithPK cfgDemoPKLive cifMark rowDemo =
      [Effect.exec "UPDATE `t` SET `c` = ? WHERE `id` = ?" [Arg.str "简T", Arg.str "1"]] := by
  constructor
  · rfl
  · rfl

/-- In the superseded revision (src/internal/mysql.go), the statement and
arguments logged in dry-run mode are exactly the ones executed in live mode:
the spec's dry-run equivalence describes that revision. -/
theorem legacy_dry_run_mirrors_live (cfg : MySQLConfig) (cif : ConvFn) (r : RowPK) :
    processRowWithPKLegacy { cfg with DryRun := true } cif r =
      (processRowWithPKLegacy { cfg with DryRun := false } cif r).map
        (fun e => match e with
          | Effect.exec s a => Effect.dryLog s a
          | e => e) := by
  by_cases h : (buildChanged cif cfg.To (List.zip cfg.Columns r.data)).isEmpty <;>
    simp [processRowWithPKLegacy, h, buildUpdatePK]

/-- Claim C8 — in both scan modes a query error is handled by sleeping a fixed
5 seconds and retrying at the same cursor/offset position; the iteration never
finishes the scan or surfaces an error on a query failure, and any number of
consecutive query errors leaves the position unchanged while producing only
constant 5-second sleeps (no retry limit, no backoff growth). -/
theorem c8_query_error_fixed_retry (cfg : MySQLConfig) (cif : ConvFn)
    (allCols : List String) (offset : Nat) (lastKey : List Value) (k : Nat) :
    noPKIter cfg cif allCols offset QueryOutcome.qerr = (ScanStep.retry 5 offset, []) ∧
    withPKIter cfg cif lastKey QueryOutcome.qerr = (ScanStep.retry 5 lastKey, []) ∧
    noPKErrRun cfg cif allCols offset k = (offset, List.replicate k 5) ∧
    withPKErrRun cfg cif lastKey k = (lastKey, List.replicate k 5) := by
  refine ⟨rfl, rfl, ?_, ?_⟩
  · induction k with
    | zero => rfl
    | succ m ih => simp [noPKErrRun, noPKIter, ih, List.replicate_succ]
  · induction k with
    | zero => rfl
    | succ m ih => simp [withPKErrRun, withPKIter, ih, List.replicate_succ]

/-- Claim C3 — counterexample: the setup phase of processNoPK succeeds on a
table whose column list does not contain the configured identify-by column
"u"; no validation of identify-by names happens before scanning. -/
theorem c3_counterexample :
    noPKSetup cfgC3 (Except.ok ["a", "b"]) = Except.ok ["a", "b"] ∧
    "u" ∈ cfgC3.IdentifyBy ∧ "u" ∉ ["a", "b"] := by
  refine ⟨rfl, ?_, ?_⟩ <;> decide

/-- Claim C3 (amended) — before scanning, the offset scanner discovers the
table's full ordered column list once, and fails only when introspection
fails or the list is empty; identify-by names are never validated against
the list, and an identify-by column absent from it is silently skipped when
a row's WHERE clause is built. -/
theorem c3_setup_checks_only_emptiness (cfg : MySQLConfig) (cols : List String)
    (e : String) (allCols : List String) (rowVals : List Value) (col : String)
    (rest : List String) (habs : col ∉ allCols) :
    (noPKSetup cfg (Except.ok cols) =
      if cols = [] then Except.error ("表 " ++ cfg.Table ++ " 无列")
      else Except.ok cols) ∧
    noPKSetup cfg (Except.error e) = Except.error ("获取列失败：" ++ e) ∧
    whereIdentify allCols rowVals (col :: rest) = whereIdentify allCols rowVals rest := by
  refine ⟨rfl, rfl, ?_⟩
  simp [whereIdentify, indexOf_neg_of_not_mem allCols col habs]

/-- Witness for the amended C3 at a concrete table: "u" is not a column,
setup succeeds anyway, and the identify-by predicate for "u" is skipped. -/
theorem c3_setup_checks_only_emptiness_witness :
    ("u" ∉ ["a"]) ∧
    ((noPKSetup cfgC3 (Except.ok ["a"]) =
        if ["a"] = ([] : List String) then Except.error ("表 " ++ cfgC3.Table ++ " 无列")
        else Except.ok ["a"]) ∧
      noPKSetup cfgC3 (Except.error "x") = Except.error ("获取列失败：" ++ "x") ∧
      whereIdentify ["a"] [some "1"] ["u"] = whereIdentify ["a"] [some "1"] []) :=
  ⟨by decide,
   c3_setup_checks_only_emptiness cfgC3 ["a"] "x" ["a"] [some "1"] "u" [] (by decide)⟩

/-- Claim C4 — NULL-safe addressing: in the primary-key / whole-row equality
WHERE loop and in the identify-by WHERE loop, a NULL value produces exactly
the bare `IS NULL` predicate and binds no argument, and a non-NULL value
produces exactly the `= ?` predicate with the value bound. -/
theorem c4_null_safe_addressing (l : List (String × Value)) (allCols : List String)
    (rowVals : List Value) (ids : List String) :
    whereEq l =
      (l.map (fun p => match p.2 with
        | none => "`" ++ p.1 ++ "` IS NULL"
        | some _ => "`" ++ p.1 ++ "` = ?"),
       l.filterMap (fun p => p.2.map Arg.str)) ∧
    whereIdentify allCols rowVals ids =
      (ids.filterMap (fun c =>
        if indexOf allCols c < 0 then none
        else match rowVals.getD (indexOf allCols c).toNat none with
          | none => some ("`" ++ c ++ "` IS NULL")
          | some _ => some ("`" ++ c ++ "` = ?")),
       ids.filterMap (fun c =>
        if indexOf allCols c < 0 then none
        else (rowVals.getD (indexOf allCols c).toNat none).map Arg.str)) := by
  constructor
  · induction l with
    | nil => rfl
    | cons p rest ih =>
      obtain ⟨c, v⟩ := p
      cases v <;> simp [whereEq, ih]
  · induction ids with
    | nil => rfl
    | cons c rest ih =>
      by_cases hidx : indexOf allCols c < 0
      · simp [whereIdentify, hidx, ih]
      · cases hval : rowVals[(indexOf allCols c).toNat]?.getD none <;>
          simp [whereIdentify, hidx, hval, ih, List.getD]

/-- Claim C5 — counterexample: with key column "a", a subsequent iteration
whose batch ends in a row with NULL key saves the all-NULL cursor [none];
the SELECT built from it equals the initial (cursor-unset) SELECT and
contains no WHERE clause at all, contradicting the claim that every
subsequent iteration's SELECT carries the tuple comparison. -/
theorem c5_counterexample :
    (withPKIter cfgC5 cifNoop [some "9"] (QueryOutcome.qok [[none, some "x"]])).1 =
      ScanStep.next [none] ∧
    buildSelectPK cfgC5 [none] = buildSelectPK cfgC5 (List.replicate cfgC5.PK.length none) ∧
    ¬ ("WHERE".toList <:+: (buildSelectPK cfgC5 [none]).1.toList) := by
  refine ⟨rfl, rfl, ?_⟩
  decide

/-- Claim C5 (amended) — the SELECT built while the saved key tuple has no
non-NULL component (including the first iteration, whose tuple is all-unset)
has no WHERE clause; whenever at least one component is non-NULL, the SELECT
contains the tuple comparison over the key columns, followed by ORDER BY the
same key columns and LIMIT with the batch size as final bound argument. -/
theorem c5_where_iff_any_valid (cfg : MySQLConfig) (lk : List Value) :
    (anyValid lk = false →
      buildSelectPK cfg lk =
        ("SELECT " ++ String.intercalate "," (quoteAll (cfg.PK ++ cfg.Columns)) ++
           " FROM `" ++ cfg.Table ++ "`" ++ " ORDER BY " ++
           String.intercalate "," cfg.PK ++ " LIMIT ?",
         [Arg.int cfg.BatchSize])) ∧
    (anyValid lk = true →
      buildSelectPK cfg lk =
        ("SELECT " ++ String.intercalate "," (quoteAll (cfg.PK ++ cfg.Columns)) ++
           " FROM `" ++ cfg.Table ++ "`" ++ " WHERE (" ++
           String.intercalate "," cfg.PK ++ ") > (" ++
           String.intercalate "," (List.replicate cfg.PK.length "?") ++ ")" ++
           " ORDER BY " ++ String.intercalate "," cfg.PK ++ " LIMIT ?",
         lk.map (fun k => Arg.str (nz k)) ++ [Arg.int cfg.BatchSize])) ∧
    anyValid (List.replicate cfg.PK.length none) = false := by
  refine ⟨?_, ?_, ?_⟩
  · intro h; simp [buildSelectPK, h]
  · intro h; simp [buildSelectPK, h]
  · induction cfg.PK.length with
    | zero => rfl
    | succ m ih => simp [anyValid, List.replicate_succ]

/-- Witness for the amended C5 at both branches: cursor [none] yields the
plain SELECT, cursor [some "5"] yields the tuple-comparison SELECT. -/
theorem c5_where_iff_any_valid_witness :
    (anyValid [none] = false ∧
      buildSelectPK cfgC5 [none] =
        ("SELECT " ++ String.intercalate "," (quoteAll (cfgC5.PK ++ cfgC5.Columns)) ++
           " FROM `" ++ cfgC5.Table ++ "`" ++ " ORDER BY " ++
           String.intercalate "," cfgC5.PK ++ " LIMIT ?",
         [Arg.int cfgC5.BatchSize])) ∧
    (anyValid [some "5"] = true ∧
      buildSelectPK cfgC5 [some "5"] =
        ("SELECT " ++ String.intercalate "," (quoteAll (cfgC5.PK ++ cfgC5.Columns)) ++
           " FROM `" ++ cfgC5.Table ++ "`" ++ " WHERE (" ++
           String.intercalate "," cfgC5.PK ++ ") > (" ++
           String.intercalate "," (List.replicate cfgC5.PK.length "?") ++ ")" ++
           " ORDER BY " ++ String.intercalate "," cfgC5.PK ++ " LIMIT ?",
         [some "5"].map (fun k => Arg.str (nz k)) ++ [Arg.int cfgC5.BatchSize])) :=
  ⟨⟨by decide, (c5_where_iff_any_valid cfgC5 [none]).1 (by decide)⟩,
   ⟨by decide, (c5_where_iff_any_valid cfgC5 [some "5"]).2.1 (by decide)⟩⟩

/-- Claim C6 — in offset mode the UPDATE's WHERE clause comes from the
identify-by loop exactly when identify_by is configured non-empty, and
otherwise from whole-row equality over every table column; the text
` LIMIT 1` is appended exactly in the whole-row (empty identify_by) case. -/
theorem c6_addressing_precedence (cfg : MySQLConfig) (allCols : List String)
    (rowVals : List Value) (changed : List (String × String)) :
    (cfg.IdentifyBy ≠ [] →
      buildUpdateNoPK cfg allCols rowVals changed =
        ("UPDATE `" ++ cfg.Table ++ "` SET " ++
           String.intercalate "," (setClause cfg.Columns changed).1 ++ " WHERE " ++
           String.intercalate " AND " (whereIdentify allCols rowVals cfg.IdentifyBy).1,
         (setClause cfg.Columns changed).2 ++
           (whereIdentify allCols rowVals cfg.IdentifyBy).2)) ∧
    (cfg.IdentifyBy = [] →
      buildUpdateNoPK cfg allCols rowVals changed =
        ("UPDATE `" ++ cfg.Table ++ "` SET " ++
           String.intercalate "," (setClause cfg.Columns changed).1 ++ " WHERE " ++
           String.intercalate " AND " (whereEq (List.zip allCols rowVals)).1 ++ " LIMIT 1",
         (setClause cfg.Columns changed).2 ++ (whereEq (List.zip allCols rowVals)).2)) := by
  constructor
  · intro h
    have hne : cfg.IdentifyBy.isEmpty = false := by
      cases hc : cfg.IdentifyBy with
      | nil => exact absurd hc h
      | cons a l => rfl
    simp [buildUpdateNoPK, hne]
  · intro h
    simp [buildUpdateNoPK, h]

/-- Witness for C6 at both branches: cfgC3 (identify_by = ["u"]) takes the
identify-by WHERE and no LIMIT 1; cfgDemoPK (identify_by empty) takes the
whole-row WHERE with LIMIT 1. -/
theorem c6_addressing_precedence_witness :
    (buildUpdateNoPK cfgC3 ["a"] [some "1"] [("c", "X")] =
      ("UPDATE `" ++ cfgC3.Table ++ "` SET " ++
         String.intercalate "," (setClause cfgC3.Columns [("c", "X")]).1 ++ " WHERE " ++
         String.intercalate " AND " (whereIdentify ["a"] [some "1"] cfgC3.IdentifyBy).1,
       (setClause cfgC3.Columns [("c", "X")]).2 ++
         (whereIdentify ["a"] [some "1"] cfgC3.IdentifyBy).2)) ∧
    (buildUpdateNoPK cfgDemoPK ["a"] [some "1"] [("c", "X")] =
      ("UPDATE `" ++ cfgDemoPK.Table ++ "` SET " ++
         String.intercalate "," (setClause cfgDemoPK.Columns [("c", "X")]).1 ++ " WHERE " ++
         String.intercalate " AND " (whereEq (List.zip ["a"] [some "1"])).1 ++ " LIMIT 1",
       (setClause cfgDemoPK.Columns [("c", "X")]).2 ++
         (whereEq (List.zip ["a"] [some "1"])).2)) :=
  ⟨(c6_addressing_precedence cfgC3 ["a"] [some "1"] [("c", "X")]).1 (by decide),
   (c6_addressing_precedence cfgDemoPK ["a"] [some "1"] [("c", "X")]).2 (by decide)⟩

/-- Appending the empty string on the right is the identity. -/
theorem str_append_empty (s : String) : s ++ "" = s := by
  cases s with
  | mk data =>
    show String.mk (data ++ []) = String.mk data
    rw [List.append_nil]

/-- Intercalating the empty list of strings gives the empty string. -/
theorem str_intercalate_nil (sep : String) : String.intercalate sep [] = "" := rfl

/-- A key tuple with every component NULL is rejected by anyValid. -/
theorem anyValid_replicate_none (n : Nat) : anyValid (List.replicate n none) = false := by
  induction n with
  | zero => rfl
  | succ m ih => simp [anyValid, List.replicate_succ]

/-- Every entry of the changed map comes from a non-NULL, non-empty stored
value for which the conversion function reported a needed change. -/
theorem buildChanged_mem (cif : ConvFn) (toV : String) :
    ∀ (l : List (String × Value)) (c out : String),
      (c, out) ∈ buildChanged cif toV l →
      ∃ v, (c, some v) ∈ l ∧ v ≠ "" ∧ cif toV v = Except.ok (out, true) := by
  intro l
  induction l with
  | nil => intro c out h; cases h
  | cons p rest ih =>
    intro c out h
    obtain ⟨c1, v⟩ := p
    cases v with
    | none =>
      obtain ⟨w, hw, hne, hcw⟩ := ih c out (by simpa [buildChanged] using h)
      exact ⟨w, List.mem_cons_of_mem _ hw, hne, hcw⟩
    | some sv =>
      by_cases hsv : sv = ""
      · obtain ⟨w, hw, hne, hcw⟩ := ih c out (by simpa [buildChanged, hsv] using h)
        exact ⟨w, List.mem_cons_of_mem _ hw, hne, hcw⟩
      · rcases hcv : cif toV sv with e | pr
        · obtain ⟨w, hw, hne, hcw⟩ := ih c out (by simpa [buildChanged, hsv, hcv] using h)
          exact ⟨w, List.mem_cons_of_mem _ hw, hne, hcw⟩
        · obtain ⟨o, need⟩ := pr
          cases need with
          | false =>
            obtain ⟨w, hw, hne, hcw⟩ := ih c out (by simpa [buildChanged, hsv, hcv] using h)
            exact ⟨w, List.mem_cons_of_mem _ hw, hne, hcw⟩
          | true =>
            have h2 : (c, out) = (c1, o) ∨ (c, out) ∈ buildChanged cif toV rest := by
              simpa [buildChanged, hsv, hcv] using h
            cases h2 with
            | inl heq =>
              have hc : c = c1 := congrArg Prod.fst heq
              have ho : out = o := congrArg Prod.snd heq
              refine ⟨sv, ?_, hsv, ?_⟩
              · rw [hc]; exact List.mem_cons_self _ _
              · rw [ho]; exact hcv
            | inr hmem =>
              obtain ⟨w, hw, hne, hcw⟩ := ih c out hmem
              exact ⟨w, List.mem_cons_of_mem _ hw, hne, hcw⟩

/-- Claim C7 — empty or pure-ASCII text is returned unchanged with no change
flag and no error, the result does not depend on the conversion-oracle
factory at all (the oracle is never consulted), and consequently every entry
of a row's changed map stems from a non-empty, non-ASCII stored value. -/
theorem c7_ascii_short_circuit (g₁ g₂ : String → Except String (String → Except String String))
    (isHan : Char → Bool) (toV s : String) (hA : IsASCIIOnly s = true) :
    ConvertIfNeeded g₁ isHan toV s = Except.ok (s, false) ∧
    ConvertIfNeeded g₁ isHan toV s = ConvertIfNeeded g₂ isHan toV s ∧
    ∀ (l : List (String × Value)) (c out : String),
      (c, out) ∈ buildChanged (ConvertIfNeeded g₁ isHan) toV l →
      ∃ v, (c, some v) ∈ l ∧ v ≠ "" ∧ IsASCIIOnly v = false := by
  refine ⟨?_, ?_, ?_⟩
  · simp [ConvertIfNeeded, hA]
  · simp [ConvertIfNeeded, hA]
  · intro l c out hmem
    obtain ⟨v, hv, hne, hcv⟩ := buildChanged_mem (ConvertIfNeeded g₁ isHan) toV l c out hmem
    refine ⟨v, hv, hne, ?_⟩
    by_cases hva : IsASCIIOnly v = true
    · rw [show ConvertIfNeeded g₁ isHan toV v = Except.ok (v, false) by
        simp [ConvertIfNeeded, hva]] at hcv
      simp at hcv
    · simpa using hva

/-- Witness for C7: "abc" is ASCII-only and ConvertIfNeeded returns it
unchanged with no change flag, even under a factory that always fails. -/
theorem c7_ascii_short_circuit_witness :
    IsASCIIOnly "abc" = true ∧
    ConvertIfNeeded getConvDemo isHanDemo "s2twp" "abc" = Except.ok ("abc", false) :=
  ⟨by decide,
   (c7_ascii_short_circuit getConvDemo getConvDemo2 isHanDemo "s2twp" "abc" (by decide)).1⟩

/-- Claim C9 — when the key tuple of a batch's last row is entirely NULL, the
saved cursor fails anyValid, so the next SELECT is the initial no-WHERE
SELECT and the keyset scan restarts from the first row; against any static
table in which this situation is reached, the scan never attains its
empty-batch termination. -/
theorem c9_all_null_cursor_restarts_scan (cfg : MySQLConfig)
    (exec : String → List Arg → List (List Value)) (k : Nat) (s lastRow : List Value)
    (hk : scanRun exec cfg k = some s)
    (hlast : (exec (buildSelectPK cfg s).1 (buildSelectPK cfg s).2).getLast? = some lastRow)
    (hnull : lastRow.take cfg.PK.length = List.replicate cfg.PK.length none) :
    anyValid (lastRow.take cfg.PK.length) = false ∧
    pkScanStep exec cfg s = some (List.replicate cfg.PK.length none) ∧
    buildSelectPK cfg (lastRow.take cfg.PK.length) =
      ("SELECT " ++ String.intercalate "," (quoteAll (cfg.PK ++ cfg.Columns)) ++
         " FROM `" ++ cfg.Table ++ "`" ++ " ORDER BY " ++
         String.intercalate "," cfg.PK ++ " LIMIT ?",
       [Arg.int cfg.BatchSize]) ∧
    ∀ n, scanRun exec cfg n ≠ none := by
  have hstep : pkScanStep exec cfg s = some (List.replicate cfg.PK.length none) := by
    simp only [pkScanStep, hlast]
    rw [hnull]
  have hcyc : (fun o => Option.bind o (pkScanStep exec cfg))^[k + 1]
      (some (List.replicate cfg.PK.length none)) =
      some (List.replicate cfg.PK.length none) := by
    rw [Function.iterate_succ_apply']
    have hk2 : (fun o => Option.bind o (pkScanStep exec cfg))^[k]
        (some (List.replicate cfg.PK.length none)) = some s := hk
    rw [hk2]
    exact hstep
  refine ⟨?_, hstep, ?_, ?_⟩
  · rw [hnull]; exact anyValid_replicate_none cfg.PK.length
  · rw [hnull]
    simp [buildSelectPK, anyValid_replicate_none]
  · intro n
    exact bindIter_cycle_ne_none (pkScanStep exec cfg)
      (List.replicate cfg.PK.length none) (k + 1) (Nat.succ_pos k) hcyc n

/-- Witness for C9 at a concrete static table (execC9): the first batch's
last row has a NULL key, the cursor resets to the initial state, and the scan
is still running after three iterations. -/
theorem c9_all_null_cursor_restarts_scan_witness :
    pkScanStep execC9 cfgC5 [none] = some [none] ∧
    scanRun execC9 cfgC5 3 ≠ none := by
  have h := c9_all_null_cursor_restarts_scan cfgC5 execC9 0 [none] [none, some "y"]
    rfl (by decide) (by decide)
  exact ⟨h.2.1, h.2.2.2 3⟩

/-- Claim C10 — when identify_by is configured non-empty but none of its
names occur in the discovered column list, every identify-by column is
silently skipped: the WHERE predicate list stays empty and the generated
statement text ends in `WHERE ` with no predicate and no `LIMIT 1`. -/
theorem c10_absent_identify_by_yields_empty_where (cfg : MySQLConfig)
    (allCols : List String) (rowVals : List Value) (changed : List (String × String))
    (hne : cfg.IdentifyBy ≠ [])
    (habs : ∀ c ∈ cfg.IdentifyBy, c ∉ allCols) :
    whereIdentify allCols rowVals cfg.IdentifyBy = ([], []) ∧
    buildUpdateNoPK cfg allCols rowVals changed =
      ("UPDATE `" ++ cfg.Table ++ "` SET " ++
         String.intercalate "," (setClause cfg.Columns changed).1 ++ " WHERE ",
       (setClause cfg.Columns changed).2) := by
  have hw := whereIdentify_all_absent allCols rowVals cfg.IdentifyBy habs
  refine ⟨hw, ?_⟩
  have hne2 : cfg.IdentifyBy.isEmpty = false := by
    cases hc : cfg.IdentifyBy with
    | nil => exact absurd hc hne
    | cons a l => rfl
  simp [buildUpdateNoPK, hne2, hw, str_intercalate_nil, str_append_empty]

/-- Witness for C10: identify_by = ["u"] against columns ["a"] produces the
predicate-free statement `UPDATE ... SET ... WHERE ` without LIMIT 1. -/
theorem c10_absent_identify_by_yields_empty_where_witness :
    whereIdentify ["a"] [some "1"] cfgC3.IdentifyBy = ([], []) ∧
    buildUpdateNoPK cfgC3 ["a"] [some "1"] [("c", "X")] =
      ("UPDATE `" ++ cfgC3.Table ++ "` SET " ++
         String.intercalate "," (setClause cfgC3.Columns [("c", "X")]).1 ++ " WHERE ",
       (setClause cfgC3.Columns [("c", "X")]).2) :=
  c10_absent_identify_by_yields_empty_where cfgC3 ["a"] [some "1"] [("c", "X")]
    (by decide) (by decide)

end Tradify
